import Mathlib

/-!
# Verification of `scraper_utils.py`

A shallow embedding of the table-extraction and browser-lifecycle logic of
`scrape_table_from_url` / `close_browser` (file `scraper_utils.py`), together
with proofs of the specified properties.

The rendered page is modelled as a DOM tree (`Node`).  The BeautifulSoup
operations used by the source (`find`, `find_all`, `get_text(strip=True)`)
are embedded as functions over that tree, following BeautifulSoup's
semantics: `find`/`find_all` search all descendants in document order, and
`get_text(strip=True)` strips each text segment individually and concatenates
the non-empty results.  The pandas `DataFrame` values constructed by the
source are modelled by `Frame` (column names plus rows of optional strings,
`none` standing for the `None`/NaN sentinel).  Browser-effectful parts
(Selenium/Helium) are modelled by an environment record carrying the outcome
of each external step, with Python exceptions rendered as `Except`.
-/

mutual
/-- A DOM node: an element with a tag name and children, or a text node.
Models the parsed tree produced by `BeautifulSoup(rendered, 'html.parser')`.
Children are carried by the mutually defined `NodeList` so that all
traversals are structurally recursive. -/
inductive Node where
  | elem (tag : String) (children : NodeList)
  | text (s : String)
deriving Repr, DecidableEq

/-- A list of sibling DOM nodes. -/
inductive NodeList where
  | nil : NodeList
  | cons (hd : Node) (tl : NodeList) : NodeList
deriving Repr, DecidableEq
end

/-- Convert a `NodeList` to an ordinary list. -/
def NodeList.toList : NodeList → List Node
  | .nil => []
  | .cons c cs => c :: cs.toList

/-- Build a `NodeList` from an ordinary list (used to write concrete
documents). -/
def nodesOf : List Node → NodeList
  | [] => .nil
  | c :: cs => .cons c (nodesOf cs)

/-- Element constructor taking an ordinary list of children. -/
def el (tag : String) (cs : List Node) : Node := .elem tag (nodesOf cs)

/-- Text-node constructor. -/
def tx (s : String) : Node := .text s

/-- The children of a node (text nodes have none). -/
def Node.children : Node → List Node
  | .elem _ cs => cs.toList
  | .text _ => []

/-- The tag of an element node. -/
def Node.tag? : Node → Option String
  | .elem t _ => some t
  | .text _ => none

mutual
/-- All nodes at or below any node of the sibling list, in document
(preorder) order. -/
def descList : NodeList → List Node
  | .nil => []
  | .cons c cs => c :: (descNode c ++ descList cs)

/-- All nodes strictly inside `n`, in document order: BeautifulSoup's
`.descendants`. -/
def descNode : Node → List Node
  | .text _ => []
  | .elem _ cs => descList cs
end

/-- BeautifulSoup `.descendants` of `n`. -/
def Node.descendants (n : Node) : List Node := descNode n

/-- Does this node match one of the given tag names?  Models BeautifulSoup
name matching for `find`/`find_all` called with a name or a list of names. -/
def matchesTags (names : List String) (n : Node) : Bool :=
  match n with
  | .elem t _ => names.contains t
  | .text _ => false

/-- BeautifulSoup `find_all(names)` on `n` (`recursive=True` default):
all matching descendant elements in document order. -/
def findAll (n : Node) (names : List String) : List Node :=
  n.descendants.filter (matchesTags names)

/-- BeautifulSoup `find(name)` on `n`: the first matching descendant
element, if any. -/
def find (n : Node) (name : String) : Option Node :=
  (findAll n [name]).head?

/-- Python whitespace characters recognised by `str.strip()`. -/
def isPyWs (c : Char) : Bool :=
  c = ' ' || c = '\t' || c = '\n' || c = '\r' || c = '\x0b' || c = '\x0c'

/-- Python `str.strip()`: remove leading and trailing whitespace. -/
def pyStrip (s : String) : String :=
  ⟨((s.data.dropWhile isPyWs).reverse.dropWhile isPyWs).reverse⟩

/-- The text contents of all text nodes inside `n`, in document order
(BeautifulSoup's `.strings`). -/
def Node.strings (n : Node) : List String :=
  n.descendants.filterMap fun d =>
    match d with
    | .text s => some s
    | .elem _ _ => none

/-- BeautifulSoup `get_text(strip=True)`: each text segment is stripped
individually, empty results are skipped, and the rest are concatenated
with an empty separator. -/
def getTextStrip (n : Node) : String :=
  String.join ((n.strings.map pyStrip).filter (fun s => s ≠ ""))

/-- The model of a pandas `DataFrame` as built by the source: column names
and rows of cells, where a cell is `some s` for a string `s` and `none` for
the `None`/NaN padding sentinel.  In the headerless branch the source calls
`pd.DataFrame(rows)`, whose columns are the positional indices `0..W-1`;
these are modelled as their decimal strings. -/
structure Frame where
  colNames : List String
  rows : List (List (Option String))
deriving Repr, DecidableEq

/-- `df.shape`: (number of rows, number of columns). -/
def Frame.shape (f : Frame) : Nat × Nat := (f.rows.length, f.colNames.length)

/-- `pd.DataFrame()`: the empty frame, shape `(0, 0)`. -/
def emptyFrame : Frame := ⟨[], []⟩

/-- Header extraction, lines 76-82 of `scraper_utils.py`: if the table has a
`<thead>`, its `<th>` descendants; otherwise the `<th>`/`<td>` descendants of
the table's first `<tr>`; otherwise no headers. -/
def extractHeaders (tbl : Node) : List String :=
  match find tbl "thead" with
  | some thead => (findAll thead ["th"]).map getTextStrip
  | none =>
    match find tbl "tr" with
    | some firstRow => (findAll firstRow ["th", "td"]).map getTextStrip
    | none => []

/-- The cells of one row, line 87: `[td.get_text(strip=True) for td in
tr.find_all(['td', 'th'])]`. -/
def rowCells (tr : Node) : List String :=
  (findAll tr ["td", "th"]).map getTextStrip

/-- Line 84: `tbody = tbl.find('tbody') or tbl`. -/
def bodyRoot (tbl : Node) : Node := (find tbl "tbody").getD tbl

/-- The `<tr>` elements the body loop iterates, line 86:
`tbody.find_all('tr')` (all `<tr>` descendants of `bodyRoot`). -/
def bodyTrs (tbl : Node) : List Node := findAll (bodyRoot tbl) ["tr"]

/-- Body extraction, lines 84-90: cells of each iterated `<tr>`, keeping only
rows with at least one non-empty cell. -/
def bodyRows (tbl : Node) : List (List String) :=
  ((bodyTrs tbl).map rowCells).filter (fun cells => cells.any (fun c => c ≠ ""))

/-- Row normalization, lines 94-98: pad a short row with `None` to the
header count, truncate a long one. -/
def normalizeRow (c : Nat) (r : List String) : List (Option String) :=
  if r.length < c then r.map some ++ List.replicate (c - r.length) none
  else (r.take c).map some

/-- The widest row's width (0 when there are no rows): the column count
pandas derives for `pd.DataFrame(rows)` on a ragged list of rows. -/
def maxWidth (rows : List (List String)) : Nat :=
  rows.foldr (fun r acc => max r.length acc) 0

/-- `pd.DataFrame(rows)` for headerless data, line 101: positional columns
`0..W-1` where `W` is the widest row's width; shorter rows are padded on the
right with NaN (`none`). -/
def dfNoHeaders (rows : List (List String)) : Frame :=
  ⟨(List.range (maxWidth rows)).map toString,
   rows.map (fun r => r.map some ++ List.replicate (maxWidth rows - r.length) none)⟩

/-- Lines 76-101 for a found table: headers, filtered body rows, and the
frame construction of lines 92-101. -/
def extractFound (tbl : Node) : Frame :=
  if extractHeaders tbl ≠ [] then
    ⟨extractHeaders tbl, (bodyRows tbl).map (normalizeRow (extractHeaders tbl).length)⟩
  else dfNoHeaders (bodyRows tbl)

/-- The extraction pass of `scrape_table_from_url` on the parsed page
(lines 68-101): find the first `<table>`; none means the empty frame. -/
def extract (root : Node) : Frame :=
  match find root "table" with
  | none => emptyFrame
  | some tbl => extractFound tbl

/-! ## Browser lifecycle model

The Selenium/Helium effects are modelled by an environment record carrying
the outcome of each external step; Python exceptions are `Except.error`. -/

/-- Python `try ... except Exception as e: handler(e)`. -/
def pyTry (act : Except String α) (handler : String → Except String α) :
    Except String α :=
  match act with
  | .ok a => .ok a
  | .error e => handler e

/-- `helium.kill_browser()` acting on the session state: succeeds (killing
the session) when one is live and the underlying teardown does not fault;
raises when the teardown faults or when no session exists. -/
def kill_browser (live : Bool) (fault : Option String) : Except String Bool :=
  if live then
    match fault with
    | none => .ok false
    | some e => .error e
  else .error "no browser to kill"

/-- `close_browser` (lines 109-122 of `scraper_utils.py`): teardown wrapped
in try/except.  The result is the session state after the call together with
the diagnostic lines printed. -/
def close_browser (live : Bool) (fault : Option String) :
    Except String (Bool × List String) :=
  pyTry
    ((kill_browser live fault).map
      (fun l => (l, ["Browser closed successfully."])))
    (fun e => .ok (live, ["kill_browser() failed or browser already closed: " ++ e]))

/-- The outcomes of the external steps taken by one call of
`scrape_table_from_url`: the session state on entry, a possible fault of the
pre-launch teardown, the outcome of `start_chrome`, whether `wait_until` saw
a `<table>` within the timeout (with the exception text otherwise), and the
parsed rendered page. -/
structure ScrapeEnv where
  browserLive : Bool
  killFault : Option String
  launchOutcome : Except String Unit
  tableAppears : Bool
  waitErrMsg : String
  page : Node

/-- `scrape_table_from_url` (lines 39-106): best-effort teardown, launch
(failures propagate), wait for a `<table>` (timeout degrades to the empty
frame with a diagnostic), then the extraction pass.  Returns the printed
diagnostic lines and the resulting frame. -/
def scrape_table_from_url (env : ScrapeEnv) (timeout_secs : Nat) :
    Except String (List String × Frame) :=
  -- lines 48-51: try: kill_browser() / except Exception: pass
  let _stateAfterCleanup : Bool :=
    match kill_browser env.browserLive env.killFault with
    | .ok l => l
    | .error _ => env.browserLive
  -- line 54: start_chrome; a launch failure propagates to the caller
  match env.launchOutcome with
  | .error e => .error e
  | .ok _ =>
    -- lines 57-64: wait_until wrapped in try/except
    if env.tableAppears then
      -- lines 66-106: snapshot and extraction
      match find env.page "table" with
      | none =>
          .ok (["No <table> found in page source. The table may be rendered differently or inside an iframe."],
               emptyFrame)
      | some tbl =>
          .ok (["Extracted DataFrame shape: (" ++ toString (extractFound tbl).shape.1
                  ++ ", " ++ toString (extractFound tbl).shape.2 ++ ")"],
               extractFound tbl)
    else
      .ok (["Table not found within " ++ toString timeout_secs ++ " seconds: " ++ env.waitErrMsg],
           emptyFrame)

/-! ## Helper lemmas -/

theorem normalizeRow_length (c : Nat) (r : List String) :
    (normalizeRow c r).length = c := by
  unfold normalizeRow
  by_cases h : r.length < c
  · simp [h]; omega
  · simp [h]; omega

theorem normalizeRow_getElem?_lt (c : Nat) (r : List String) (j : Nat)
    (hj : j < c) (hr : j < r.length) :
    (normalizeRow c r)[j]? = (r[j]?).map some := by
  unfold normalizeRow
  by_cases h : r.length < c
  · rw [if_pos h, List.getElem?_append, if_pos (by simpa using hr), List.getElem?_map]
  · rw [if_neg h, List.getElem?_map, List.getElem?_take, if_pos hj]

theorem normalizeRow_getElem?_ge (c : Nat) (r : List String) (j : Nat)
    (hj : j < c) (hr : r.length ≤ j) :
    (normalizeRow c r)[j]? = some none := by
  unfold normalizeRow
  have h : r.length < c := lt_of_le_of_lt hr hj
  rw [if_pos h, List.getElem?_append, if_neg (by simp; omega),
    List.length_map, List.getElem?_replicate, if_pos (by omega)]

theorem length_le_maxWidth {r : List String} {rows : List (List String)}
    (h : r ∈ rows) : r.length ≤ maxWidth rows := by
  induction rows with
  | nil => cases h
  | cons a t ih =>
    rcases List.mem_cons.mp h with rfl | h'
    · exact le_max_left _ _
    · exact le_trans (ih h') (le_max_right _ _)

theorem padded_length {r : List String} {w : Nat} (h : r.length ≤ w) :
    (r.map some ++ List.replicate (w - r.length) none).length = w := by
  simp; omega

theorem padded_getElem?_lt {r : List String} {w j : Nat} (hr : j < r.length) :
    (r.map some ++ List.replicate (w - r.length) none)[j]? = (r[j]?).map some := by
  rw [List.getElem?_append, if_pos (by simpa using hr), List.getElem?_map]

theorem padded_getElem?_ge {r : List String} {w j : Nat} (hw : j < w)
    (hr : r.length ≤ j) :
    (r.map some ++ List.replicate (w - r.length) none)[j]? = some none := by
  rw [List.getElem?_append, if_neg (by simp; omega), List.length_map,
    List.getElem?_replicate, if_pos (by omega)]

theorem data_join_filter_ne_empty (l : List String) :
    ((l.filter (fun s => s ≠ "")).map String.data).flatten
      = (l.map String.data).flatten := by
  induction l with
  | nil => rfl
  | cons s t ih =>
    by_cases h : s = ""
    · subst h
      simpa using ih
    · rw [List.filter_cons, if_pos (by simp [h]), List.map_cons, List.map_cons,
        List.flatten_cons, List.flatten_cons, ih]

theorem join_filter_ne_empty (l : List String) :
    String.join (l.filter (fun s => s ≠ "")) = String.join l := by
  apply String.ext
  rw [String.data_join, String.data_join]
  exact data_join_filter_ne_empty l

theorem extract_of_find {root tbl : Node} (h : find root "table" = some tbl) :
    extract root = extractFound tbl := by
  unfold extract
  rw [h]

theorem mem_of_head?_eq {α : Type} {l : List α} {x : α} (h : l.head? = some x) :
    x ∈ l := by
  cases l with
  | nil => simp at h
  | cons a t =>
    simp only [List.head?_cons, Option.some.injEq] at h
    exact h ▸ List.mem_cons_self a t

theorem findAll_pair_comm (n : Node) (a b : String) :
    findAll n [a, b] = findAll n [b, a] := by
  unfold findAll
  apply List.filter_congr
  intro x _
  cases x with
  | text s => rfl
  | elem t cs =>
    simp only [matchesTags, List.contains, List.elem]
    cases h1 : t == a <;> cases h2 : t == b <;> rfl

/-- `d` is a strict descendant of `n` in the DOM tree. -/
inductive IsDesc : Node → Node → Prop where
  | child {d n : Node} : d ∈ n.children → IsDesc d n
  | nest {d c n : Node} : c ∈ n.children → IsDesc d c → IsDesc d n

mutual
theorem mem_descList_iff {d : Node} :
    ∀ (cs : NodeList), d ∈ descList cs ↔ ∃ c, c ∈ cs.toList ∧ (d = c ∨ IsDesc d c)
  | .nil => by simp [descList, NodeList.toList]
  | .cons c cs => by
    have hn := mem_descNode_iff (d := d) c
    have hl := mem_descList_iff (d := d) cs
    simp only [descList, NodeList.toList, List.mem_cons, List.mem_append]
    constructor
    · rintro (rfl | h | h)
      · exact ⟨d, Or.inl rfl, Or.inl rfl⟩
      · exact ⟨c, Or.inl rfl, Or.inr (hn.mp h)⟩
      · obtain ⟨c', hc', hd⟩ := hl.mp h
        exact ⟨c', Or.inr hc', hd⟩
    · rintro ⟨c', hc', hd⟩
      rcases hc' with rfl | hc''
      · rcases hd with rfl | hd
        · exact Or.inl rfl
        · exact Or.inr (Or.inl (hn.mpr hd))
      · exact Or.inr (Or.inr (hl.mpr ⟨c', hc'', hd⟩))

theorem mem_descNode_iff {d : Node} :
    ∀ (n : Node), d ∈ descNode n ↔ IsDesc d n
  | .text s => by
    simp only [descNode, List.not_mem_nil, false_iff]
    intro h
    cases h with
    | child h => simp [Node.children] at h
    | nest h _ => simp [Node.children] at h
  | .elem t cs => by
    rw [show descNode (.elem t cs) = descList cs from rfl, mem_descList_iff cs]
    constructor
    · rintro ⟨c, hc, (rfl | hd)⟩
      · exact IsDesc.child (by simpa [Node.children] using hc)
      · exact IsDesc.nest (c := c) (by simpa [Node.children] using hc) hd
    · intro h
      cases h with
      | child hc => exact ⟨d, by simpa [Node.children] using hc, Or.inl rfl⟩
      | nest hc hd => exact ⟨_, by simpa [Node.children] using hc, Or.inr hd⟩
end

theorem mem_descendants_iff {d n : Node} : d ∈ n.descendants ↔ IsDesc d n :=
  mem_descNode_iff n

theorem matchesTags_tr_iff (n : Node) :
    matchesTags ["tr"] n = true ↔ n.tag? = some "tr" := by
  cases n with
  | text s => simp [matchesTags, Node.tag?]
  | elem t cs =>
    constructor
    · intro h
      have ht : t == "tr" := by
        simpa [matchesTags, List.contains_cons] using h
      simpa [Node.tag?] using eq_of_beq ht
    · intro h
      have ht : t = "tr" := by simpa [Node.tag?] using h
      subst ht
      rfl

theorem extractFound_pos {tbl : Node} (h : extractHeaders tbl ≠ []) :
    extractFound tbl =
      ⟨extractHeaders tbl, (bodyRows tbl).map (normalizeRow (extractHeaders tbl).length)⟩ := by
  unfold extractFound
  rw [if_pos h]

theorem extractFound_neg {tbl : Node} (h : extractHeaders tbl = []) :
    extractFound tbl = dfNoHeaders (bodyRows tbl) := by
  unfold extractFound
  rw [if_neg (by simp [h])]

theorem mem_of_getElem?_eq_some {α : Type} {l : List α} {i : Nat} {a : α}
    (h : l[i]? = some a) : a ∈ l := by
  have hi : i < l.length := by
    by_contra hn
    rw [List.getElem?_eq_none (by omega)] at h
    cases h
  rw [List.getElem?_eq_getElem hi] at h
  exact (Option.some.injEq _ _ ▸ h) ▸ l.getElem_mem hi

/-! ## Claim theorems -/

/-- The table of scenario S1:
`<thead><tr><th>A</th><th>B</th></tr></thead><tbody>...</tbody>`. -/
def tableS1 : Node :=
  el "table"
    [ el "thead" [el "tr" [el "th" [tx "A"], el "th" [tx "B"]]],
      el "tbody" [el "tr" [el "td" [tx "1"], el "td" [tx "2"]],
                  el "tr" [el "td" [tx "3"], el "td" [tx "4"]]]]

/-- A page whose rendered HTML contains `tableS1` as its only table. -/
def docS1 : Node := el "[document]" [el "html" [el "body" [tableS1]]]

/-- C1: for any page whose rendered DOM contains exactly one `<table>`, of the
S1 form, `scrape_table_from_url`'s extraction returns headers `["A","B"]`,
rows `[["1","2"],["3","4"]]`, and shape `(2, 2)`. -/
theorem C1_happy_path_with_thead (doc : Node)
    (h : findAll doc ["table"] = [tableS1]) :
    extract doc = ⟨["A", "B"], [[some "1", some "2"], [some "3", some "4"]]⟩ ∧
      (extract doc).shape = (2, 2) := by
  have hfind : find doc "table" = some tableS1 := by
    unfold find
    rw [h]
    rfl
  rw [extract_of_find hfind]
  exact ⟨rfl, rfl⟩

/-- Witness for C1 at the concrete page `docS1`. -/
theorem C1_happy_path_with_thead_witness :
    extract docS1 = ⟨["A", "B"], [[some "1", some "2"], [some "3", some "4"]]⟩ ∧
      (extract docS1).shape = (2, 2) :=
  C1_happy_path_with_thead docS1 rfl

/-- C2: every extracted frame is rectangular (each row as long as the column
list); in the headerless branch the column count is the widest kept row's
width, shorter rows being padded on the right with the null sentinel. -/
theorem C2_rectangular (doc : Node) :
    (∀ row ∈ (extract doc).rows, row.length = (extract doc).colNames.length) ∧
    (∀ tbl, find doc "table" = some tbl → extractHeaders tbl = [] →
      (extract doc).colNames.length = maxWidth (bodyRows tbl) ∧
      (∀ (i : Nat) (r : List String), (bodyRows tbl)[i]? = some r →
        ∃ row, (extract doc).rows[i]? = some row ∧
          (∀ j, j < maxWidth (bodyRows tbl) →
            row[j]? = if j < r.length then (r[j]?).map some else some none))) := by
  constructor
  · intro row hrow
    cases hf : find doc "table" with
    | none =>
      rw [show extract doc = emptyFrame by unfold extract; rw [hf]] at hrow ⊢
      cases hrow
    | some tbl =>
      rw [extract_of_find hf] at hrow ⊢
      by_cases hh : extractHeaders tbl = []
      · rw [extractFound_neg hh] at hrow ⊢
        simp only [dfNoHeaders, List.mem_map] at hrow
        obtain ⟨r, hr, rfl⟩ := hrow
        simp only [dfNoHeaders, List.length_map, List.length_range]
        exact padded_length (length_le_maxWidth hr)
      · rw [extractFound_pos hh] at hrow ⊢
        simp only [List.mem_map] at hrow
        obtain ⟨r, hr, rfl⟩ := hrow
        exact normalizeRow_length _ _
  · intro tbl hf hh
    rw [extract_of_find hf, extractFound_neg hh]
    refine ⟨by simp [dfNoHeaders], ?_⟩
    intro i r hir
    refine ⟨r.map some ++ List.replicate (maxWidth (bodyRows tbl) - r.length) none, ?_, ?_⟩
    · simp only [dfNoHeaders, List.getElem?_map, hir, Option.map_some']
    · intro j hj
      by_cases hjr : j < r.length
      · rw [if_pos hjr, padded_getElem?_lt hjr]
      · rw [if_neg hjr, padded_getElem?_ge hj (by omega)]

/-- A table whose `<thead>` has no `<th>` cells (so the header list is
empty) over a ragged body: exercises the headerless padding branch. -/
def tableHeaderless : Node :=
  el "table"
    [ el "thead" [],
      el "tbody" [el "tr" [el "td" [tx "p"], el "td" [tx "q"]],
                  el "tr" [el "td" [tx "s"]]]]

/-- A page carrying `tableHeaderless`. -/
def docHeaderless : Node := el "[document]" [tableHeaderless]

/-- Witness for C2 at a concrete headerless ragged page. -/
theorem C2_rectangular_witness :
    (∀ row ∈ (extract docHeaderless).rows,
        row.length = (extract docHeaderless).colNames.length) ∧
    (extract docHeaderless).colNames.length = maxWidth (bodyRows tableHeaderless) ∧
    maxWidth (bodyRows tableHeaderless) = 2 :=
  ⟨(C2_rectangular docHeaderless).1,
   ((C2_rectangular docHeaderless).2 tableHeaderless rfl rfl).1,
   rfl⟩

/-- The S3 table: headers `A B C` over ragged body rows. -/
def tableS3 : Node :=
  el "table"
    [ el "thead" [el "tr" [el "th" [tx "A"], el "th" [tx "B"], el "th" [tx "C"]]],
      el "tbody" [el "tr" [el "td" [tx "1"], el "td" [tx "2"]],
                  el "tr" [el "td" [tx "3"], el "td" [tx "4"],
                           el "td" [tx "5"], el "td" [tx "6"]]]]

/-- A page carrying `tableS3`. -/
def docS3 : Node := el "[document]" [tableS3]

/-- C3: when the header list is non-empty, every returned row has exactly as
many cells as there are headers; a shorter extracted row is padded on the
right with the null sentinel, a longer one is truncated to its first
`C` cells, cell order preserved. -/
theorem C3_header_width_normalization (doc tbl : Node)
    (hf : find doc "table" = some tbl) (hh : extractHeaders tbl ≠ []) :
    (extract doc).colNames = extractHeaders tbl ∧
    (∀ row ∈ (extract doc).rows, row.length = (extractHeaders tbl).length) ∧
    (∀ (i : Nat) (r : List String), (bodyRows tbl)[i]? = some r →
      ∃ row, (extract doc).rows[i]? = some row ∧
        (∀ j, j < (extractHeaders tbl).length →
          (j < r.length → row[j]? = (r[j]?).map some) ∧
          (r.length ≤ j → row[j]? = some none))) := by
  rw [extract_of_find hf, extractFound_pos hh]
  refine ⟨rfl, ?_, ?_⟩
  · intro row hrow
    obtain ⟨r, _, rfl⟩ := List.mem_map.mp hrow
    exact normalizeRow_length _ _
  · intro i r hir
    refine ⟨normalizeRow (extractHeaders tbl).length r, ?_, ?_⟩
    · simp only [List.getElem?_map, hir, Option.map_some']
    · intro j hj
      exact ⟨fun hjr => normalizeRow_getElem?_lt _ _ _ hj hjr,
             fun hjr => normalizeRow_getElem?_ge _ _ _ hj hjr⟩

/-- Witness for C3 at the S3 page: the long row `["3","4","5","6"]` becomes
a row of width 3 that keeps its first three cells. -/
theorem C3_header_width_normalization_witness :
    (extract docS3).colNames = ["A", "B", "C"] ∧
    ∃ row, (extract docS3).rows[1]? = some row ∧ row.length = 3 ∧
      row[2]? = some (some "5") := by
  obtain ⟨h1, h2, h3⟩ :=
    C3_header_width_normalization docS3 tableS3 rfl (by decide)
  obtain ⟨row, hrow, hptw⟩ := h3 1 ["3", "4", "5", "6"] rfl
  refine ⟨by rw [h1]; rfl, row, hrow, ?_, ?_⟩
  · exact (h2 row (mem_of_getElem?_eq_some hrow)).trans rfl
  · have := (hptw 2 (by decide)).1 (by decide)
    simpa using this

/-- A table whose only body row has all its non-empty content beyond the
single header column: `headers = ["A"]`, row cells `["", "x"]`. -/
def tableC4 : Node :=
  el "table"
    [ el "thead" [el "tr" [el "th" [tx "A"]]],
      el "tbody" [el "tr" [el "td" [], el "td" [tx "x"]]]]

/-- A page carrying `tableC4`. -/
def docC4 : Node := el "[document]" [tableC4]

/-- Counterexample to C4 as stated: at `docC4` the returned frame contains
the row `[some ""]`, all of whose cells are the empty string — truncation to
the header count removed the only non-empty cell of the kept row. -/
theorem C4_returned_empty_row_counterexample :
    (extract docC4).rows = [[some ""]] ∧
    ∃ row ∈ (extract docC4).rows, row ≠ [] ∧ ∀ c ∈ row, c = some "" := by
  decide

/-- C4 amended: every extracted body row that survives the filter has at
least one non-empty cell (all-empty and whitespace-only rows are dropped);
in the headerless branch this persists to the returned rows.  An all-empty
row can reappear in the returned value only via truncation to the header
count. -/
theorem C4_empty_rows_dropped (tbl : Node) :
    (∀ r ∈ bodyRows tbl, ∃ c ∈ r, c ≠ "") ∧
    (extractHeaders tbl = [] →
      ∀ row ∈ (extractFound tbl).rows, ∃ c ∈ row, ∃ s, c = some s ∧ s ≠ "") := by
  have hkept : ∀ r ∈ bodyRows tbl, ∃ c ∈ r, c ≠ "" := by
    intro r hr
    have hany := (List.mem_filter.mp hr).2
    simpa using List.any_eq_true.mp hany
  refine ⟨hkept, ?_⟩
  intro hh row hrow
  rw [extractFound_neg hh] at hrow
  simp only [dfNoHeaders, List.mem_map] at hrow
  obtain ⟨r, hr, rfl⟩ := hrow
  obtain ⟨c, hc, hcne⟩ := hkept r hr
  exact ⟨some c, List.mem_append_left _ (List.mem_map_of_mem _ hc), c, rfl, hcne⟩

/-- Witness for the amended C4 at concrete pages: a kept row of `tableS1`
has a non-empty cell, and a returned headerless row of `tableHeaderless`
carries a non-empty string cell. -/
theorem C4_empty_rows_dropped_witness :
    (∃ c ∈ ["1", "2"], c ≠ "") ∧
    (∃ c ∈ [some "p", some "q"], ∃ s, c = some s ∧ s ≠ "") :=
  ⟨(C4_empty_rows_dropped tableS1).1 ["1", "2"] (by decide),
   (C4_empty_rows_dropped tableHeaderless).2 rfl [some "p", some "q"] (by decide)⟩

/-- The `<tr>` of the inner nested table. -/
def innerTr : Node := el "tr" [el "td" [tx "z"]]

/-- A `<tbody>` with exactly one direct `<tr>` child, whose cell holds an
inner table carrying `innerTr`. -/
def tbodyNested : Node := el "tbody" [el "tr" [el "td" [el "table" [innerTr]]]]

/-- The outer table around `tbodyNested`. -/
def tableNested : Node := el "table" [tbodyNested]

/-- A page carrying `tableNested`. -/
def docNested : Node := el "[document]" [tableNested]

/-- The body-row pass as the claim words it: when a `<tbody>` exists, iterate
only its direct `<tr>` children.  Written from the claim's words, for
comparison with the source's `bodyTrs`. -/
def bodyTrsDirectChildren (tbl : Node) : List Node :=
  match find tbl "tbody" with
  | some tb => tb.children.filter (matchesTags ["tr"])
  | none => findAll tbl ["tr"]

/-- Counterexample to C5 as stated: on `docNested` the code's body pass also
iterates the `<tr>` of the nested inner table — two rows — where the
direct-children reading yields one. -/
theorem C5_direct_children_counterexample :
    bodyTrs tableNested ≠ bodyTrsDirectChildren tableNested ∧
    (bodyTrs tableNested).length = 2 ∧
    (bodyTrsDirectChildren tableNested).length = 1 ∧
    innerTr ∈ bodyTrs tableNested ∧
    (extract docNested).rows.length = 2 := by
  decide

/-- C5 amended: the body pass iterates all `<tr>` descendants (at any
nesting depth) of the `<tbody>` when one is found, and of the table itself
otherwise. -/
theorem C5_body_iterates_tr_descendants (tbl tb tr : Node) :
    (find tbl "tbody" = some tb →
      (tr ∈ bodyTrs tbl ↔ IsDesc tr tb ∧ tr.tag? = some "tr")) ∧
    (find tbl "tbody" = none →
      (tr ∈ bodyTrs tbl ↔ IsDesc tr tbl ∧ tr.tag? = some "tr")) := by
  constructor
  · intro h
    unfold bodyTrs bodyRoot
    rw [h]
    simp only [Option.getD_some]
    unfold findAll
    rw [List.mem_filter, mem_descendants_iff, matchesTags_tr_iff]
  · intro h
    unfold bodyTrs bodyRoot
    rw [h]
    simp only [Option.getD_none]
    unfold findAll
    rw [List.mem_filter, mem_descendants_iff, matchesTags_tr_iff]

/-- Witness for the amended C5: on the nested page, the inner `<tr>` is a
(deep) descendant of the outer `<tbody>` iterated by the body pass. -/
theorem C5_body_iterates_tr_descendants_witness :
    IsDesc innerTr tbodyNested ∧ innerTr.tag? = some "tr" :=
  ((C5_body_iterates_tr_descendants tableNested tbodyNested innerTr).1 rfl).mp
    (by decide)

/-- The cell-text rule as the claim words it: concatenate all descendant
text, then strip the concatenation.  Written from the claim's words, for
comparison with the source's `getTextStrip`. -/
def cellTextConcatThenStrip (n : Node) : String :=
  pyStrip (String.join n.strings)

/-- A cell with two text segments separated by an element boundary. -/
def tdHello : Node := el "td" [tx "hello ", el "b" [tx "world"]]

/-- A page whose only cell is `tdHello`. -/
def docHello : Node :=
  el "[document]" [el "table" [el "tbody" [el "tr" [tdHello]]]]

/-- Counterexample to C6 as stated: `get_text(strip=True)` strips each text
segment before joining, so whitespace at a segment boundary is lost: the
cell yields `"helloworld"`, not `"hello world"`. -/
theorem C6_cell_text_counterexample :
    getTextStrip tdHello = "helloworld" ∧
    cellTextConcatThenStrip tdHello = "hello world" ∧
    getTextStrip tdHello ≠ cellTextConcatThenStrip tdHello ∧
    (extract docHello).rows = [[some "helloworld"]] := by
  decide

/-- C6 amended: extracted cell text is the concatenation of the cell's
descendant text segments, each individually stripped of leading and trailing
whitespace; for a cell with a single text segment this coincides with
stripping the concatenation. -/
theorem C6_cell_text_segmentwise_strip (n : Node) :
    getTextStrip n = String.join (n.strings.map pyStrip) ∧
    (∀ s, n.strings = [s] → getTextStrip n = pyStrip s) := by
  have hmain : getTextStrip n = String.join (n.strings.map pyStrip) :=
    join_filter_ne_empty _
  refine ⟨hmain, ?_⟩
  intro s hs
  rw [hmain, hs]
  apply String.ext
  simp [String.data_join]

/-- Witness for the amended C6 at a single-segment cell. -/
theorem C6_cell_text_segmentwise_strip_witness :
    getTextStrip (el "b" [tx "world"]) = pyStrip "world" :=
  (C6_cell_text_segmentwise_strip (el "b" [tx "world"])).2 "world" rfl

/-- C7: when the browser launches but no `<table>` appears before the
timeout, the call returns normally with the empty `(0, 0)` frame and prints
a diagnostic line mentioning `timeout_secs`. -/
theorem C7_timeout_returns_empty (env : ScrapeEnv) (t : Nat) (ht : 0 < t)
    (hlaunch : env.launchOutcome = .ok ()) (hwait : env.tableAppears = false) :
    ∃ ds, scrape_table_from_url env t = .ok (ds, emptyFrame) ∧
      emptyFrame.shape = (0, 0) ∧
      ∃ d ∈ ds, ∃ p q, d = p ++ toString t ++ q := by
  refine ⟨["Table not found within " ++ toString t ++ " seconds: " ++ env.waitErrMsg],
    ?_, rfl, ?_⟩
  · simp [scrape_table_from_url, hlaunch, hwait]
  · exact ⟨_, List.mem_singleton.mpr rfl,
      "Table not found within ", " seconds: " ++ env.waitErrMsg,
      String.append_assoc _ _ _⟩

/-- An environment in which the wait never sees a table. -/
def envTimeout : ScrapeEnv :=
  ⟨false, none, .ok (), false, "Message: timeout", el "[document]" []⟩

/-- Witness for C7 at the concrete timeout environment with the default
30-second timeout. -/
theorem C7_timeout_returns_empty_witness :
    ∃ ds, scrape_table_from_url envTimeout 30 = .ok (ds, emptyFrame) ∧
      emptyFrame.shape = (0, 0) ∧
      ∃ d ∈ ds, ∃ p q, d = p ++ toString 30 ++ q :=
  C7_timeout_returns_empty envTimeout 30 (by decide) rfl rfl

/-- C8: `close_browser` never raises whatever the session state and whatever
the underlying teardown outcome; after a successful teardown a second call
still returns normally (with the failure diagnostic); any teardown failure
surfaces only as a diagnostic line; and the pre-launch teardown inside
`scrape_table_from_url` never changes the call's outcome — in particular a
teardown failure does not abort the launch. -/
theorem C8_close_browser_total (live b : Bool) (fault f : Option String)
    (env : ScrapeEnv) (t : Nat) :
    (∃ out, close_browser live fault = .ok out) ∧
    (close_browser true none = .ok (false, ["Browser closed successfully."])) ∧
    (∀ f2 : Option String, ∃ out2, close_browser false f2 = .ok out2 ∧ out2.1 = false) ∧
    (∀ e, close_browser true (some e)
      = .ok (true, ["kill_browser() failed or browser already closed: " ++ e])) ∧
    (scrape_table_from_url { env with browserLive := b, killFault := f } t
      = scrape_table_from_url env t) := by
  refine ⟨?_, rfl, ?_, fun e => rfl, rfl⟩
  · unfold close_browser pyTry kill_browser
    cases live
    · exact ⟨_, rfl⟩
    · cases fault <;> exact ⟨_, rfl⟩
  · intro f2
    exact ⟨_, rfl, rfl⟩

/-- A table with no `<thead>` whose first `<tr>` sits outside the explicit
`<tbody>`. -/
def tableTrOutside : Node :=
  el "table"
    [ el "tr" [el "th" [tx "X"]],
      el "tbody" [el "tr" [el "td" [tx "a"]]]]

/-- A page carrying `tableTrOutside`. -/
def docTrOutside : Node := el "[document]" [tableTrOutside]

/-- Counterexample to C9 as stated: on `docTrOutside` the first `<tr>`
supplies the headers (`["X"]`), but since it lies outside the `<tbody>` the
body pass never iterates it, so no `["X"]` row appears in the result. -/
theorem C9_first_row_counterexample :
    find tableTrOutside "thead" = none ∧
    (extract docTrOutside).colNames = ["X"] ∧
    (extract docTrOutside).rows = [[some "a"]] ∧
    [some "X"] ∉ (extract docTrOutside).rows := by
  decide

/-- C9 amended: with no `<thead>` and no `<tbody>`, the first `<tr>`'s cells
become the header list, and — the body pass then iterating all `<tr>`
descendants of the table, the first included — that same row also appears
among the returned rows, provided it is not dropped as all-empty.  (When an
explicit `<tbody>` excludes the first `<tr>`, the row does not reappear; see
the counterexample.) -/
theorem C9_first_row_fallback (doc tbl ftr : Node)
    (hf : find doc "table" = some tbl)
    (hthead : find tbl "thead" = none)
    (htbody : find tbl "tbody" = none)
    (htr : find tbl "tr" = some ftr)
    (hne : (rowCells ftr).any (fun c => c ≠ "") = true) :
    (extract doc).colNames = rowCells ftr ∧
    ((rowCells ftr).map some) ∈ (extract doc).rows := by
  have hheaders : extractHeaders tbl = rowCells ftr := by
    unfold extractHeaders
    rw [hthead, htr]
    unfold rowCells
    rw [findAll_pair_comm]
  have hnonempty : extractHeaders tbl ≠ [] := by
    rw [hheaders]
    obtain ⟨c, hc, _⟩ := List.any_eq_true.mp hne
    exact List.ne_nil_of_mem hc
  rw [extract_of_find hf, extractFound_pos hnonempty]
  refine ⟨hheaders, ?_⟩
  have hmem_tr : ftr ∈ bodyTrs tbl := by
    unfold bodyTrs bodyRoot
    rw [htbody]
    simp only [Option.getD_none]
    unfold find at htr
    exact mem_of_head?_eq htr
  have hmem_row : rowCells ftr ∈ bodyRows tbl :=
    List.mem_filter.mpr ⟨List.mem_map_of_mem _ hmem_tr, hne⟩
  have hlen : ¬ (rowCells ftr).length < (extractHeaders tbl).length := by
    rw [hheaders]
    omega
  have hnorm : normalizeRow (extractHeaders tbl).length (rowCells ftr)
      = (rowCells ftr).map some := by
    unfold normalizeRow
    rw [if_neg hlen, hheaders, List.take_length]
  have hmem := List.mem_map_of_mem
    (normalizeRow (extractHeaders tbl).length) hmem_row
  rw [hnorm] at hmem
  exact hmem

/-- The S2 first row: `<tr><th>X</th><th>Y</th></tr>`. -/
def ftrS2 : Node := el "tr" [el "th" [tx "X"], el "th" [tx "Y"]]

/-- The S2 table: no `<thead>`, no `<tbody>`. -/
def tableS2 : Node :=
  el "table" [ftrS2, el "tr" [el "td" [tx "a"], el "td" [tx "b"]]]

/-- A page carrying `tableS2`. -/
def docS2 : Node := el "[document]" [tableS2]

/-- Witness for the amended C9 at the S2 page. -/
theorem C9_first_row_fallback_witness :
    (extract docS2).colNames = rowCells ftrS2 ∧
    (rowCells ftrS2).map some ∈ (extract docS2).rows :=
  C9_first_row_fallback docS2 tableS2 ftrS2 rfl rfl rfl rfl (by decide)

/-- C10: a found table with non-empty headers all of whose body rows are
dropped (or absent) yields the shape `(0, C)` frame carrying the header
names — not the empty `(0, 0)` value. -/
theorem C10_headers_without_rows (doc tbl : Node)
    (hf : find doc "table" = some tbl)
    (hh : extractHeaders tbl ≠ [])
    (hrows : bodyRows tbl = []) :
    extract doc = ⟨extractHeaders tbl, []⟩ ∧
    (extract doc).shape = (0, (extractHeaders tbl).length) ∧
    (extract doc).shape ≠ (0, 0) ∧
    (extract doc).colNames = extractHeaders tbl := by
  have hx : extract doc = ⟨extractHeaders tbl, []⟩ := by
    rw [extract_of_find hf, extractFound_pos hh, hrows]
    rfl
  refine ⟨hx, by rw [hx]; rfl, ?_, by rw [hx]⟩
  rw [hx]
  intro hcontra
  have hlen : (extractHeaders tbl).length = 0 := congrArg Prod.snd hcontra
  exact hh (List.length_eq_zero.mp hlen)

/-- A table with one header cell whose only body row is whitespace-only
(hence dropped). -/
def tableC10 : Node :=
  el "table"
    [ el "thead" [el "tr" [el "th" [tx "A"]]],
      el "tbody" [el "tr" [el "td" [tx "  "]]]]

/-- A page carrying `tableC10`. -/
def docC10 : Node := el "[document]" [tableC10]

/-- Witness for C10 at the concrete page: shape `(0, 1)` with column "A". -/
theorem C10_headers_without_rows_witness :
    extract docC10 = ⟨["A"], []⟩ ∧ (extract docC10).shape = (0, 1) := by
  obtain ⟨h1, h2, _, _⟩ := C10_headers_without_rows docC10 tableC10 rfl (by decide) rfl
  exact ⟨h1.trans rfl, h2.trans rfl⟩
